import Mathlib

/-!
Verification of the mimic identity/service-catalog mock server core.

The development shallowly embeds three parts of the code base:

* the catalog synthesizer (`get_token` / `get_endpoints` in
  `mimic/canned_responses/auth.py`, called `to_token_catalog` /
  `to_endpoints_catalog` by the design document);
* the session registry (`MimicCore.session_for_*` in `mimic/core.py`);
* the service directory and request dispatch
  (`MimicCore.uri_prefixes` / `service_with_region` in `mimic/core.py`
  and `MimicRoot.get_service_resource` in `mimic/resource.py`).

`mimic/core.py`, `mimic/canned_responses/auth.py` and `mimic/catalog.py`
are not part of the checked-out sources; their definitions below are
modelled from the design document (and pinned, where the checked-out
tests constrain them, by `mimic/test/test_auth.py` and
`mimic/test/test_resource.py`).  `mimic/rest/auth_api.py` and
`mimic/resource.py` are in the sources and are embedded directly.
-/

namespace Mimic

/-- Modelled from the spec: an abstract catalog endpoint as produced by a
plugin (`mimic/catalog.py` `Endpoint` is not in the sources).  It carries a
tenant id, a region, an endpoint identifier and "a capability to render a
public URL given an externally supplied base-URI prefix"; the capability is
kept abstract as a function field (`urlFor` stands for the source's
`url_with_prefix` method, renamed). -/
structure Endpoint where
  tenant_id : String
  region : String
  endpoint_id : String
  urlFor : String → String

/-- Modelled from the spec: an abstract catalog entry
(`mimic/catalog.py` `Entry` is not in the sources): `tenant_id`,
`service_type`, `service_name` and an ordered sequence of endpoints. -/
structure Entry where
  tenant_id : String
  type : String
  name : String
  endpoints : List Endpoint

/-- One endpoint object of the token-response service catalog:
`{region, tenantId, publicURL}` (wire shape of `POST /v2.0/tokens`). -/
structure CatalogEndpoint where
  region : String
  tenantId : String
  publicURL : String
deriving DecidableEq, Repr

/-- One service object of the token-response service catalog:
`{name, type, endpoints}`. -/
structure CatalogService where
  name : String
  type : String
  endpoints : List CatalogEndpoint
deriving DecidableEq, Repr

/-- One record of the flat endpoints response:
`{region, tenantId, publicURL, name, type, id}` (wire shape of
`GET /v2.0/tokens/<token>/endpoints`). -/
structure EndpointRecord where
  region : String
  tenantId : String
  publicURL : String
  name : String
  type : String
  id : Nat
deriving DecidableEq, Repr

/-- An `EndpointRecord` before the integer id is attached. -/
structure PreRecord where
  region : String
  tenantId : String
  publicURL : String
  name : String
  type : String
deriving DecidableEq, Repr

/-- Modelled from the spec: the service object `to_token_catalog` builds
for one entry (`get_token` in `mimic/canned_responses/auth.py` is not in
the sources; the shape is pinned by
`CatalogGenerationTests.test_tokens_response`): the entry's name and type,
and one `{region, tenantId, publicURL}` object per endpoint, the public
URL rendered from the entry's prefix. -/
def entryService (pfe : Entry → String) (e : Entry) : CatalogService :=
  { name := e.name
    type := e.type
    endpoints := e.endpoints.map (fun ep =>
      { region := ep.region
        tenantId := ep.tenant_id
        publicURL := ep.urlFor (pfe e) }) }

/-- Modelled from the spec: `to_token_catalog(tenant_id, entries,
prefix_for_entry)` "groups output by entry (preserving generator order; no
deduplication), each entry carrying its ordered endpoints"; this is the
`serviceCatalog` member of `get_token`'s response. -/
def to_token_catalog (tenant_id : String) (entry_generator : String → List Entry)
    (pfe : Entry → String) : List CatalogService :=
  (entry_generator tenant_id).map (entryService pfe)

/-- Modelled from the spec: the flat, not yet numbered sequence of endpoint
records, "flattens every endpoint across every entry, in generator order,
... carrying its owning entry's name/type". -/
def preRecordsOf (pfe : Entry → String) (entries : List Entry) : List PreRecord :=
  entries.flatMap (fun e => e.endpoints.map (fun ep =>
    { region := ep.region
      tenantId := ep.tenant_id
      publicURL := ep.urlFor (pfe e)
      name := e.name
      type := e.type }))

/-- Modelled from the spec: tag each flat record with an integer id drawn
from a counter, as `get_endpoints` does with `itertools.count(1)`. -/
def tagIds : Nat → List PreRecord → List EndpointRecord
  | _, [] => []
  | n, r :: rs =>
    { region := r.region, tenantId := r.tenantId, publicURL := r.publicURL,
      name := r.name, type := r.type, id := n } :: tagIds (n + 1) rs

/-- Modelled from the spec: `to_endpoints_catalog(tenant_id, entries,
prefix_for_entry)` (`get_endpoints` in `mimic/canned_responses/auth.py` is
not in the sources; the shape is pinned by
`CatalogGenerationTests.test_endpoints_response`): every endpoint across
every entry in generator order, "tagging each with a strictly increasing
integer id starting at 1". -/
def to_endpoints_catalog (tenant_id : String) (entry_generator : String → List Entry)
    (pfe : Entry → String) : List EndpointRecord :=
  tagIds 1 (preRecordsOf pfe (entry_generator tenant_id))

/-- The non-id fields of a numbered record. -/
def EndpointRecord.pre (r : EndpointRecord) : PreRecord :=
  { region := r.region, tenantId := r.tenantId, publicURL := r.publicURL,
    name := r.name, type := r.type }

theorem tagIds_map_id (n : Nat) (l : List PreRecord) :
    (tagIds n l).map EndpointRecord.id = List.range' n l.length := by
  induction l generalizing n with
  | nil => rfl
  | cons r rs ih =>
    simp [tagIds, List.range'_succ, ih]

theorem mem_tagIds {r : EndpointRecord} {n : Nat} {l : List PreRecord}
    (h : r ∈ tagIds n l) : r.pre ∈ l := by
  induction l generalizing n with
  | nil => cases h
  | cons q qs ih =>
    rcases List.mem_cons.mp h with h | h
    · subst h
      exact List.mem_cons_self _ _
    · exact List.mem_cons_of_mem _ (ih h)

theorem mem_preRecordsOf {p : PreRecord} {pfe : Entry → String} {entries : List Entry}
    (h : p ∈ preRecordsOf pfe entries) :
    ∃ e ∈ entries, ∃ ep ∈ e.endpoints,
      p = { region := ep.region, tenantId := ep.tenant_id,
            publicURL := ep.urlFor (pfe e), name := e.name, type := e.type } := by
  rcases List.mem_flatMap.mp h with ⟨e, he, hp⟩
  rcases List.mem_map.mp hp with ⟨ep, hep, rfl⟩
  exact ⟨e, he, ep, hep, rfl⟩

theorem tagIds_length (n : Nat) (l : List PreRecord) :
    (tagIds n l).length = l.length := by
  induction l generalizing n with
  | nil => rfl
  | cons q qs ih => simp [tagIds, ih]

/-- The `(region, tenantId, publicURL)` triples of a token-response
service catalog, across its services in order. -/
def catalogTriples (services : List CatalogService) : List (String × String × String) :=
  services.flatMap (fun s => s.endpoints.map (fun ep => (ep.region, ep.tenantId, ep.publicURL)))

/-- The `(region, tenantId, publicURL)` triples of a flat endpoints
response, in order. -/
def recordTriples (records : List EndpointRecord) : List (String × String × String) :=
  records.map (fun r => (r.region, r.tenantId, r.publicURL))

theorem recordTriples_tagIds (n : Nat) (l : List PreRecord) :
    recordTriples (tagIds n l) = l.map (fun p => (p.region, p.tenantId, p.publicURL)) := by
  induction l generalizing n with
  | nil => rfl
  | cons q qs ih =>
    simp only [tagIds, recordTriples, List.map_cons] at ih ⊢
    exact congrArg (List.cons _) (ih (n + 1))

theorem catalogTriples_map_entryService (pfe : Entry → String) (entries : List Entry) :
    catalogTriples (entries.map (entryService pfe))
      = (preRecordsOf pfe entries).map (fun p => (p.region, p.tenantId, p.publicURL)) := by
  induction entries with
  | nil => rfl
  | cons e es ih =>
    simp only [catalogTriples, preRecordsOf, List.map_cons, List.flatMap_cons,
      List.map_append, List.map_map] at ih ⊢
    rw [ih]
    simp [entryService, List.map_map, Function.comp]

/-- C1: for every tenant and every entry generator, the flat endpoints
projection (`to_endpoints_catalog` / `get_endpoints`) tags the endpoints,
taken across all entries in generator order, with integer ids forming a
strictly increasing, gap-free sequence starting at 1 (the id column is
exactly `[1, 2, ..., n]`), and each record carries its owning entry's name
and type. -/
theorem to_endpoints_catalog_numbering (t : String) (gen : String → List Entry)
    (pfe : Entry → String) :
    (to_endpoints_catalog t gen pfe).map EndpointRecord.id
      = List.range' 1 (to_endpoints_catalog t gen pfe).length ∧
    ∀ r ∈ to_endpoints_catalog t gen pfe,
      ∃ e ∈ gen t, r.name = e.name ∧ r.type = e.type ∧
        ∃ ep ∈ e.endpoints, r.region = ep.region ∧ r.tenantId = ep.tenant_id ∧
          r.publicURL = ep.urlFor (pfe e) := by
  constructor
  · rw [to_endpoints_catalog, tagIds_map_id, tagIds_length]
  · intro r hr
    have hpre := mem_tagIds hr
    rcases mem_preRecordsOf hpre with ⟨e, he, ep, hep, hq⟩
    exact ⟨e, he, congrArg PreRecord.name hq, congrArg PreRecord.type hq,
      ep, hep, congrArg PreRecord.region hq, congrArg PreRecord.tenantId hq,
      congrArg PreRecord.publicURL hq⟩

/-- C4: for every tenant id, entry generator and prefix function, the
multiset of `(region, tenantId, publicURL)` triples in the output of
`to_token_catalog` equals the multiset of those triples in the output of
`to_endpoints_catalog`; only the grouping differs.  (The two lists are in
fact equal element for element, which implies the multiset equality.) -/
theorem token_endpoints_same_triples (t : String) (gen : String → List Entry)
    (pfe : Entry → String) :
    (catalogTriples (to_token_catalog t gen pfe) : Multiset (String × String × String))
      = (recordTriples (to_endpoints_catalog t gen pfe) : Multiset (String × String × String)) := by
  have h : catalogTriples (to_token_catalog t gen pfe)
      = recordTriples (to_endpoints_catalog t gen pfe) := by
    rw [to_token_catalog, to_endpoints_catalog, catalogTriples_map_entryService,
      recordTriples_tagIds]
  rw [h]

/-- Modelled from the spec: a session record of the session registry
(`mimic/core.py` is not in the sources): opaque unique `token`,
`tenant_id`, `user_id`, `username` and an optional absolute expiry in
virtual time. -/
structure Session where
  username : String
  token : String
  tenant_id : String
  user_id : String
  expires : Option Nat
deriving DecidableEq, Repr

/-- Modelled from the spec: the mutable state of the session registry,
with the injectable time source read as `time` (a manually advanceable
virtual clock) and a counter from which fresh opaque identifiers (the
source's `uuid4()` values) are drawn. -/
structure SessionStore where
  sessions : List Session
  time : Nat
  counter : Nat
deriving DecidableEq, Repr

/-- A fresh opaque identifier: `stem` plus the next counter value. -/
def freshName (stem : String) (n : Nat) : String :=
  stem ++ "_" ++ toString n

/-- The registry error taxonomy member raised for an unresolvable or
expired token. -/
inductive AuthError where
  | SessionNotFound
deriving DecidableEq, Repr

/-- Advance the injectable time source by `d` seconds (the test clock's
`advance`); the registry itself never mutates the clock. -/
def advanceClock (st : SessionStore) (d : Nat) : SessionStore :=
  { st with time := st.time + d }

/-- Modelled from the spec: `create_by_password` /
`MimicCore.session_for_username_password` — always mints a new token;
`tenant_id` is the supplied tenant name if any, else a generated value;
ordinary sessions carry no expiry.  The new session is registered at the
front of the session list. -/
def session_for_username_password (st : SessionStore) (username _password : String)
    (tenant_name : Option String) : Session × SessionStore :=
  let tid := match tenant_name with
    | some tn => tn
    | none => freshName "tenant" (st.counter + 1)
  let s : Session :=
    { username := username, token := freshName "token" st.counter,
      tenant_id := tid, user_id := freshName "user" (st.counter + 2),
      expires := none }
  (s, { st with sessions := s :: st.sessions, counter := st.counter + 3 })

/-- Modelled from the spec: `create_impersonation(username, ttl_seconds)` /
`MimicCore.session_for_impersonation` — mints a session for the named user
with `expires_at = now() + ttl_seconds` read from the injectable time
source. -/
def session_for_impersonation (st : SessionStore) (username : String) (ttl : Nat) :
    Session × SessionStore :=
  let s : Session :=
    { username := username, token := freshName "token" st.counter,
      tenant_id := freshName "tenant" (st.counter + 1),
      user_id := freshName "user" (st.counter + 2),
      expires := some (st.time + ttl) }
  (s, { st with sessions := s :: st.sessions, counter := st.counter + 3 })

/-- Modelled from the spec: `lookup_by_token` / `MimicCore.session_for_token`.
A token held by a registered session resolves to that session, except that a
session whose expiry lies strictly before the current virtual time is
unresolvable (`SessionNotFound`).  A token no session holds does not fail:
as `GetEndpointsForTokenTests.test_session_created_for_token` pins down
("A session is created for the token provided"), a session carrying exactly
that token is synthesized and registered. -/
def session_for_token (st : SessionStore) (token : String) :
    Except AuthError (Session × SessionStore) :=
  match st.sessions.find? (fun s => s.token == token) with
  | some s =>
    match s.expires with
    | some e => if e < st.time then .error .SessionNotFound else .ok (s, st)
    | none => .ok (s, st)
  | none =>
    let s : Session :=
      { username := freshName "username" st.counter, token := token,
        tenant_id := freshName "tenant" (st.counter + 1),
        user_id := freshName "user" (st.counter + 2), expires := none }
    .ok (s, { st with sessions := s :: st.sessions, counter := st.counter + 3 })

/-- Modelled from the spec: `lookup_by_tenant_id` /
`MimicCore.session_for_tenant_id` — a side-effecting lookup: if no session
exists for the tenant one is synthesized on the spot and registered, so
tenant-keyed lookup always yields some session. -/
def session_for_tenant_id (st : SessionStore) (tenant_id : String) :
    Session × SessionStore :=
  match st.sessions.find? (fun s => s.tenant_id == tenant_id) with
  | some s => (s, st)
  | none =>
    let s : Session :=
      { username := freshName "username" st.counter,
        token := freshName "token" (st.counter + 1), tenant_id := tenant_id,
        user_id := freshName "user" (st.counter + 2), expires := none }
    (s, { st with sessions := s :: st.sessions, counter := st.counter + 3 })

/-- The session registry state before any operation has run. -/
def emptyStore : SessionStore :=
  { sessions := [], time := 0, counter := 0 }

theorem session_for_token_cons_expired (s : Session) (rest : List Session)
    (time counter e : Nat) (hs : s.expires = some e) (ht : e < time) :
    session_for_token { sessions := s :: rest, time := time, counter := counter } s.token
      = Except.error AuthError.SessionNotFound := by
  unfold session_for_token
  rw [List.find?_cons_of_pos _ (by simp)]
  simp [hs, ht]

/-- C5: for every tenant id, looking up a session by tenant id
(`lookup_by_tenant_id` / `session_for_tenant_id`) always returns some
session: the returned session is for that tenant, it is registered in the
resulting store as a side effect of the lookup, and a subsequent
tenant-keyed lookup again resolves to a session for that tenant. -/
theorem tenant_lookup_always_yields (st : SessionStore) (tenant_id : String) :
    (session_for_tenant_id st tenant_id).1.tenant_id = tenant_id ∧
    (session_for_tenant_id st tenant_id).1 ∈ (session_for_tenant_id st tenant_id).2.sessions ∧
    (session_for_tenant_id (session_for_tenant_id st tenant_id).2 tenant_id).1.tenant_id
      = tenant_id := by
  have main : ∀ st' : SessionStore,
      (session_for_tenant_id st' tenant_id).1.tenant_id = tenant_id ∧
      (session_for_tenant_id st' tenant_id).1
        ∈ (session_for_tenant_id st' tenant_id).2.sessions := by
    intro st'
    unfold session_for_tenant_id
    cases hf : st'.sessions.find? (fun s => s.tenant_id == tenant_id) with
    | some s =>
      have h2 := List.find?_some hf
      simp only [beq_iff_eq] at h2
      exact ⟨h2, List.mem_of_find?_eq_some hf⟩
    | none => exact ⟨rfl, List.mem_cons_self _ _⟩
  exact ⟨(main st).1, (main st).2, (main _).1⟩

/-- C7: for every impersonation session created by
`create_impersonation(username, ttl_seconds)` /
`session_for_impersonation`, the session's expiry equals `now() + ttl`
read from the injectable time source, and resolving the session's token
after the clock has advanced past the expiry fails with
`SessionNotFound`. -/
theorem impersonation_session_expires (st : SessionStore) (username : String)
    (ttl d : Nat) (h : ttl < d) :
    (session_for_impersonation st username ttl).1.expires = some (st.time + ttl) ∧
    session_for_token
        (advanceClock (session_for_impersonation st username ttl).2 d)
        (session_for_impersonation st username ttl).1.token
      = Except.error AuthError.SessionNotFound := by
  refine ⟨rfl, ?_⟩
  exact session_for_token_cons_expired _ st.sessions (st.time + d) (st.counter + 3)
    (st.time + ttl) rfl (Nat.add_lt_add_left h st.time)

theorem impersonation_session_expires_witness :
    (session_for_impersonation emptyStore "impuser" 5).1.expires
      = some (emptyStore.time + 5) ∧
    session_for_token
        (advanceClock (session_for_impersonation emptyStore "impuser" 5).2 6)
        (session_for_impersonation emptyStore "impuser" 5).1.token
      = Except.error AuthError.SessionNotFound :=
  impersonation_session_expires emptyStore "impuser" 5 6 (by decide)

/-- C2 counterexample: in the freshly initialized registry no
session-creating operation has ever run, so no operation ever returned the
token `"1234567890"`; yet `session_for_token` on that token does not fail
with `SessionNotFound` — it returns a session carrying exactly that token
(the create-on-miss behavior that
`GetEndpointsForTokenTests.test_session_created_for_token` requires). -/
theorem token_lookup_unknown_token_cex :
    (∃ s st', session_for_token emptyStore "1234567890" = Except.ok (s, st') ∧
      s.token = "1234567890") ∧
    session_for_token emptyStore "1234567890"
      ≠ Except.error AuthError.SessionNotFound := by
  refine ⟨⟨_, _, rfl, rfl⟩, fun h => ?_⟩
  exact Except.noConfusion h

/-- C2 (amended): for every token that no registered session holds — in
particular one never returned by any session-creating operation — looking
the token up does not fail with `SessionNotFound`: a session whose token
is exactly the queried token is synthesized and registered
(create-on-miss), as `test_session_created_for_token` demands;
`SessionNotFound` is reserved for tokens of expired sessions. -/
theorem token_lookup_unknown_token_creates (st : SessionStore) (token : String)
    (h : st.sessions.find? (fun s => s.token == token) = none) :
    ∃ s st', session_for_token st token = Except.ok (s, st') ∧
      s.token = token ∧ s ∈ st'.sessions := by
  simp only [session_for_token, h]
  exact ⟨_, _, rfl, rfl, List.mem_cons_self _ _⟩

theorem token_lookup_unknown_token_creates_witness :
    ∃ s st', session_for_token emptyStore "tok99" = Except.ok (s, st') ∧
      s.token = "tok99" ∧ s ∈ st'.sessions :=
  token_lookup_unknown_token_creates emptyStore "tok99" rfl

/-- Modelled from the spec: the service directory state
(`MimicCore.uri_prefixes` in `mimic/core.py` is not in the sources): the
`ServiceKey = (region, service_id)` to plugin mapping, plus the source of
fresh service identifiers ("a dynamically-generated UUID for a particular
plugin", modelled as a counter).  Plugins are referred to by an opaque
numeric handle. -/
structure Directory where
  mapping : List ((String × String) × Nat)
  nextId : Nat
deriving DecidableEq, Repr

/-- A freshly generated service identifier. -/
def genServiceId (n : Nat) : String :=
  "service-id-" ++ toString n

/-- Whether the directory has already assigned a service id to the given
`(plugin, region)` pair. -/
def pairSeen (d : Directory) (p : Nat) (r : String) : Bool :=
  d.mapping.any (fun kv => kv.1.1 == r && kv.2 == p)

/-- Modelled from the spec: registration of one plugin for one region —
"assign a fresh unique `service_id` if the plugin/region pair has not been
seen, else reuse the existing one; store the mapping". -/
def registerOne (d : Directory) (p : Nat) (r : String) : Directory :=
  if pairSeen d p r then d
  else { mapping := d.mapping ++ [((r, genServiceId d.nextId), p)],
         nextId := d.nextId + 1 }

/-- Modelled from the spec: `register(plugin, regions)` over a region
list. -/
def registerRegions (d : Directory) (p : Nat) (regions : List String) : Directory :=
  regions.foldl (fun acc r => registerOne acc p r) d

/-- Lookup of a `(region, service_id)` key in a service mapping (the
dictionary access on `uri_prefixes`). -/
def lookupService (m : List ((String × String) × Nat)) (region service_id : String) :
    Option Nat :=
  (m.find? (fun kv => kv.1.1 == region && kv.1.2 == service_id)).map (fun kv => kv.2)

/-- Modelled from the spec: `resolve(region, service_id) → Plugin | None`. -/
def resolveService (d : Directory) (region service_id : String) : Option Nat :=
  lookupService d.mapping region service_id

/-- Directory states reachable from `d` by later `register` calls: the
directory evolves only by registration for the life of the process. -/
inductive Reachable : Directory → Directory → Prop where
  | refl (d : Directory) : Reachable d d
  | step (d d' : Directory) (p : Nat) (rs : List String) :
      Reachable d d' → Reachable d (registerRegions d' p rs)

theorem find?_append_some {α : Type} {p : α → Bool} {l l' : List α} {a : α}
    (h : l.find? p = some a) : (l ++ l').find? p = some a := by
  rw [List.find?_append, h]
  rfl

theorem lookupService_append {m m' : List ((String × String) × Nat)}
    {region sid : String} {p : Nat} (h : lookupService m region sid = some p) :
    lookupService (m ++ m') region sid = some p := by
  unfold lookupService at h ⊢
  cases hf : m.find? (fun kv => kv.1.1 == region && kv.1.2 == sid) with
  | none => rw [hf] at h; exact absurd h (by simp)
  | some kv =>
    rw [hf] at h
    rw [find?_append_some hf]
    exact h

theorem lookupService_registerOne_some {d : Directory} {q : Nat} {r region sid : String}
    {p : Nat} (h : lookupService d.mapping region sid = some p) :
    lookupService (registerOne d q r).mapping region sid = some p := by
  unfold registerOne
  split
  · exact h
  · exact lookupService_append h

theorem lookupService_registerRegions_some {d : Directory} {q : Nat} {rs : List String}
    {region sid : String} {p : Nat} (h : lookupService d.mapping region sid = some p) :
    lookupService (registerRegions d q rs).mapping region sid = some p := by
  induction rs generalizing d with
  | nil => exact h
  | cons r rest ih => exact ih (lookupService_registerOne_some h)

theorem pairSeen_registerOne_mono {d : Directory} {q p : Nat} {r r' : String}
    (h : pairSeen d p r = true) : pairSeen (registerOne d q r') p r = true := by
  unfold registerOne
  split
  · exact h
  · unfold pairSeen at h ⊢
    simp only [List.any_append, h, Bool.true_or]

theorem pairSeen_registerOne_self (d : Directory) (p : Nat) (r : String) :
    pairSeen (registerOne d p r) p r = true := by
  unfold registerOne
  split
  · next hseen => exact hseen
  · unfold pairSeen
    simp

theorem registerOne_of_seen {d : Directory} {p : Nat} {r : String}
    (h : pairSeen d p r = true) : registerOne d p r = d := by
  unfold registerOne
  simp [h]

theorem pairSeen_registerRegions_mono {d : Directory} {p q : Nat} {r : String}
    {rs : List String} (h : pairSeen d p r = true) :
    pairSeen (registerRegions d q rs) p r = true := by
  induction rs generalizing d with
  | nil => exact h
  | cons b brest ih => exact ih (pairSeen_registerOne_mono h)

theorem pairSeen_registerRegions (d : Directory) (p : Nat) (rs : List String) :
    ∀ r ∈ rs, pairSeen (registerRegions d p rs) p r = true := by
  induction rs generalizing d with
  | nil => intro r hr; cases hr
  | cons a rest ih =>
    intro r hr
    rcases List.mem_cons.mp hr with rfl | hr
    · show pairSeen (registerRegions (registerOne d p r) p rest) p r = true
      exact pairSeen_registerRegions_mono (pairSeen_registerOne_self d p r)
    · exact ih (registerOne d p a) r hr

theorem registerRegions_of_all_seen {d : Directory} {p : Nat} {rs : List String}
    (h : ∀ r ∈ rs, pairSeen d p r = true) : registerRegions d p rs = d := by
  induction rs with
  | nil => rfl
  | cons a rest ih =>
    show registerRegions (registerOne d p a) p rest = d
    rw [registerOne_of_seen (h a (List.mem_cons_self _ _))]
    exact ih (fun r hr => h r (List.mem_cons_of_mem _ hr))

theorem registerRegions_idem (d : Directory) (p : Nat) (rs : List String) :
    registerRegions (registerRegions d p rs) p rs = registerRegions d p rs :=
  registerRegions_of_all_seen (pairSeen_registerRegions d p rs)

/-- C3: for every plugin registered under a region, every later resolution
of the assigned `(region, service_id)` key returns the same plugin for the
life of the process: once `resolveService` answers a plugin for a key, it
answers the same plugin in every directory state reachable by further
registrations, and re-registering an already-registered plugin/region set
assigns no new identifier (the whole registration is a no-op). -/
theorem resolve_stable_forever (d d' : Directory) (region sid : String) (p : Nat)
    (hr : Reachable d d') (hres : resolveService d region sid = some p) :
    resolveService d' region sid = some p ∧
    ∀ q rs, registerRegions (registerRegions d' q rs) q rs
      = registerRegions d' q rs := by
  refine ⟨?_, fun q rs => registerRegions_idem d' q rs⟩
  induction hr with
  | refl => exact hres
  | step d'' q rs _ ih => exact lookupService_registerRegions_some ih

theorem resolve_stable_forever_witness :
    resolveService (registerRegions (registerRegions { mapping := [], nextId := 0 } 0 ["ORD"]) 1 ["DFW"])
        "ORD" (genServiceId 0) = some 0 ∧
    ∀ q rs,
      registerRegions
          (registerRegions
            (registerRegions (registerRegions { mapping := [], nextId := 0 } 0 ["ORD"]) 1 ["DFW"]) q rs)
          q rs
        = registerRegions
            (registerRegions (registerRegions { mapping := [], nextId := 0 } 0 ["ORD"]) 1 ["DFW"]) q rs :=
  resolve_stable_forever
    (registerRegions { mapping := [], nextId := 0 } 0 ["ORD"])
    (registerRegions (registerRegions { mapping := [], nextId := 0 } 0 ["ORD"]) 1 ["DFW"])
    "ORD" (genServiceId 0) 0
    (Reachable.step _ _ 1 ["DFW"] (Reachable.refl _))
    (by decide)

/-- An opaque request-handling resource: either a normal resource that
renders a body (the dummy plugin's `ExampleResource`), or the `NoResource`
not-found sentinel (both the boundary's standard not-found and the value a
declining plugin may return). -/
inductive Resource where
  | body (msg : String)
  | noResource
deriving DecidableEq, Repr

/-- The observable state of one registered request-handling plugin,
after `mimic/test/dummy.py` `ExampleAPI`: whether its
`resource_for_region` declines (returns the not-found sentinel), the
response body it otherwise serves, and the `store` in which it records
every `uri_prefix` it was handed. -/
structure PluginState where
  declines : Bool
  message : String
  store : List String
deriving DecidableEq, Repr

/-- The plugin capability `resource_for_region(uri_prefix)`: the returned
resource together with the plugin state after the call (the call is
recorded in `store`, as `ExampleAPI.resource_for_region` does). -/
def resource_for_region (p : PluginState) (uri : String) : Resource × PluginState :=
  (if p.declines then Resource.noResource else Resource.body p.message,
   { p with store := p.store ++ [uri] })

/-- Modelled from the spec: the service-routing half of `MimicCore`
(`mimic/core.py` is not in the sources): the `uri_prefixes` mapping from
`(region, service_id)` keys to plugins, the plugins held by numeric
handle in a list. -/
structure MimicCore where
  uri_prefixes : List ((String × String) × Nat)
  plugins : List PluginState
deriving DecidableEq, Repr

/-- The `uri_prefix` handed to a matched plugin: the externally visible
request URI rewritten to end with the matched
`/service/<region>/<service_id>/` path segment
(`ServiceResourceTests.test_child_resource_gets_base_uri_from_request`
pins this shape down). -/
def serviceUriFor (base_uri region service_id : String) : String :=
  base_uri ++ "service/" ++ region ++ "/" ++ service_id ++ "/"

/-- Modelled from the spec: `MimicCore.service_with_region(region,
service_id, base_uri)` — resolve the key in `uri_prefixes`; an
unregistered key yields `none` without consulting any plugin, a registered
key yields whatever resource its plugin builds for the rewritten base URI
(possibly the plugin's own not-found sentinel). -/
def service_with_region (c : MimicCore) (region service_id base_uri : String) :
    Option Resource × MimicCore :=
  match lookupService c.uri_prefixes region service_id with
  | none => (none, c)
  | some i =>
    match c.plugins[i]? with
    | none => (none, c)
    | some p =>
      let rp := resource_for_region p (serviceUriFor base_uri region service_id)
      (some rp.1, { c with plugins := c.plugins.set i rp.2 })

/-- An inbound request, reduced to what the routing layer reads: the
externally visible root URI of the request (what
`base_uri_from_request` computes by clicking to `/`), and the path
segments below the root. -/
structure Request where
  root : String
  pathSegments : List String

/-- `base_uri_from_request` of `mimic/rest/auth_api.py`: the base URI the
request was trying to access, i.e. the root of the request URI. -/
def base_uri_from_request (req : Request) : String :=
  req.root

/-- `MimicRoot.get_service_resource` of `mimic/resource.py`: resolve the
`(region, service_id)` pair through the core; a `None` result is replaced
by the boundary's own `NoResource()` (the standard not-found), anything
else is returned as the resource that handles the request. -/
def get_service_resource (c : MimicCore) (region service_id : String) (req : Request) :
    Resource × MimicCore :=
  match service_with_region c region service_id (base_uri_from_request req) with
  | (none, c') => (Resource.noResource, c')
  | (some r, c') => (r, c')

/-- The `/service/<region>/<service_id>/...` branch route of `MimicRoot`:
a request whose path enters the service directory is dispatched through
`get_service_resource` whatever the further sub-path; any other path shape
is outside this model and answers not-found. -/
def dispatch (c : MimicCore) (req : Request) : Resource × MimicCore :=
  match req.pathSegments with
  | "service" :: region :: service_id :: _ => get_service_resource c region service_id req
  | _ => (Resource.noResource, c)

/-- C8: resolving a `(region, service_id)` pair never assigned by
registration yields a not-found outcome — `service_with_region` answers
`none` and the boundary surfaces the standard `NoResource` — and this
condition is distinguishable from a registered pair whose plugin itself
declines the request, which answers `some Resource.noResource` instead of
`none`. -/
theorem unregistered_key_not_found (c : MimicCore) (region sid : String) (req : Request)
    (h : lookupService c.uri_prefixes region sid = none) :
    get_service_resource c region sid req = (Resource.noResource, c) ∧
    (service_with_region c region sid (base_uri_from_request req)).1 = none ∧
    ∀ c₂ : MimicCore, ∀ i : Nat, ∀ p : PluginState,
      lookupService c₂.uri_prefixes region sid = some i →
      c₂.plugins[i]? = some p → p.declines = true →
      (service_with_region c₂ region sid (base_uri_from_request req)).1
        = some Resource.noResource := by
  have h1 : service_with_region c region sid (base_uri_from_request req) = (none, c) := by
    unfold service_with_region
    rw [h]
  refine ⟨?_, ?_, ?_⟩
  · unfold get_service_resource
    rw [h1]
  · rw [h1]
  · intro c₂ i p hi hp hd
    simp [service_with_region, hi, hp, resource_for_region, hd]

theorem unregistered_key_not_found_witness :
    get_service_resource { uri_prefixes := [], plugins := [] } "ORD" "sid0"
        { root := "http://mybase/", pathSegments := ["service", "ORD", "sid0"] }
      = (Resource.noResource, { uri_prefixes := [], plugins := [] }) ∧
    (service_with_region { uri_prefixes := [], plugins := [] } "ORD" "sid0"
        (base_uri_from_request
          { root := "http://mybase/", pathSegments := ["service", "ORD", "sid0"] })).1
      = none ∧
    ∀ c₂ : MimicCore, ∀ i : Nat, ∀ p : PluginState,
      lookupService c₂.uri_prefixes "ORD" "sid0" = some i →
      c₂.plugins[i]? = some p → p.declines = true →
      (service_with_region c₂ "ORD" "sid0"
          (base_uri_from_request
            { root := "http://mybase/", pathSegments := ["service", "ORD", "sid0"] })).1
        = some Resource.noResource :=
  unregistered_key_not_found { uri_prefixes := [], plugins := [] } "ORD" "sid0"
    { root := "http://mybase/", pathSegments := ["service", "ORD", "sid0"] } rfl

/-- C9: for every request routed to a registered `(region, service_id)`
pair, whatever further sub-path follows, the `uri_prefix` handed to the
plugin's resource constructor (recorded in the plugin's store by
`resource_for_region`) is the externally visible request URI rewritten to
end with the matched `/service/<region>/<service_id>/` path segment. -/
theorem plugin_gets_rewritten_base_uri (c : MimicCore) (root region sid : String)
    (rest : List String) (i : Nat) (p : PluginState)
    (hres : lookupService c.uri_prefixes region sid = some i)
    (hp : c.plugins[i]? = some p) :
    (dispatch c { root := root, pathSegments := "service" :: region :: sid :: rest }).2.plugins[i]?
      = some { p with
          store := p.store ++ [root ++ "service/" ++ region ++ "/" ++ sid ++ "/"] } := by
  have hstep : dispatch c { root := root, pathSegments := "service" :: region :: sid :: rest }
      = get_service_resource c region sid
          { root := root, pathSegments := "service" :: region :: sid :: rest } := rfl
  rw [hstep]
  unfold get_service_resource service_with_region base_uri_from_request
  simp only [hres, hp]
  have hlt : i < c.plugins.length := by
    rcases List.getElem?_eq_some.mp hp with ⟨hl, _⟩
    exact hl
  rw [List.getElem?_set_self hlt]
  rfl

theorem plugin_gets_rewritten_base_uri_witness :
    (dispatch
        { uri_prefixes := [(("ORD", "sid0"), 0)],
          plugins := [{ declines := false, message := "response!", store := [] }] }
        { root := "http://mybase/",
          pathSegments := "service" :: "ORD" :: "sid0" :: ["more", "stuff"] }).2.plugins[0]?
      = some { declines := false, message := "response!",
               store := [] ++ ["http://mybase/" ++ "service/" ++ "ORD" ++ "/" ++ "sid0" ++ "/"] } :=
  plugin_gets_rewritten_base_uri
    { uri_prefixes := [(("ORD", "sid0"), 0)],
      plugins := [{ declines := false, message := "response!", store := [] }] }
    "http://mybase/" "ORD" "sid0" ["more", "stuff"] 0
    { declines := false, message := "response!", store := [] } (by decide) rfl

/-- C10: a service-routed request whose `(region, service_id)` pair does
not resolve to a registered plugin consults no plugin at all: the dispatch
answers the standard not-found with the core state unchanged, so in
particular every plugin's store — which records every
`resource_for_region` invocation — is exactly as before. -/
theorem failed_resolution_touches_no_plugin (c : MimicCore) (root region sid : String)
    (rest : List String)
    (h : lookupService c.uri_prefixes region sid = none) :
    dispatch c { root := root, pathSegments := "service" :: region :: sid :: rest }
      = (Resource.noResource, c) ∧
    (dispatch c { root := root, pathSegments := "service" :: region :: sid :: rest }).2.plugins
      = c.plugins := by
  have hstep : dispatch c { root := root, pathSegments := "service" :: region :: sid :: rest }
      = get_service_resource c region sid
          { root := root, pathSegments := "service" :: region :: sid :: rest } := rfl
  have h1 : get_service_resource c region sid
      { root := root, pathSegments := "service" :: region :: sid :: rest }
      = (Resource.noResource, c) := by
    unfold get_service_resource service_with_region
    rw [h]
  rw [hstep, h1]
  exact ⟨rfl, rfl⟩

theorem failed_resolution_touches_no_plugin_witness :
    dispatch
        { uri_prefixes := [(("ORD", "sid0"), 0)],
          plugins := [{ declines := false, message := "response!", store := [] }] }
        { root := "http://mybase/",
          pathSegments := "service" :: "ORD" :: "not_sid0" :: [] }
      = (Resource.noResource,
         { uri_prefixes := [(("ORD", "sid0"), 0)],
           plugins := [{ declines := false, message := "response!", store := [] }] }) ∧
    (dispatch
        { uri_prefixes := [(("ORD", "sid0"), 0)],
          plugins := [{ declines := false, message := "response!", store := [] }] }
        { root := "http://mybase/",
          pathSegments := "service" :: "ORD" :: "not_sid0" :: [] }).2.plugins
      = [{ declines := false, message := "response!", store := [] }] :=
  failed_resolution_touches_no_plugin
    { uri_prefixes := [(("ORD", "sid0"), 0)],
      plugins := [{ declines := false, message := "response!", store := [] }] }
    "http://mybase/" "ORD" "not_sid0" [] (by decide)

/-- Modelled from the spec: the plugin capability on the catalog side —
`catalog_entries(tenant_id)` produces a sequence of catalog entries for a
given tenant. -/
structure CatalogPlugin where
  catalog_entries : String → List Entry

/-- Modelled from the spec: the catalog-facing view of the core — the
`(region, service_id)` to plugin mapping and the registered plugins. -/
structure CatalogCore where
  uri_prefixes : List ((String × String) × Nat)
  plugins : List CatalogPlugin

/-- Modelled from the spec: `MimicCore.entries_for_tenant(tenant_id,
prefix_map, base_uri)` — each registered `(region, service_id)` key
contributes its plugin's entries for the tenant, each entry associated (in
the source, through the `prefix_map` dictionary keyed by the yielded entry
object) with the URI prefix rewritten for that key. -/
def entries_for_tenant (c : CatalogCore) (tenant base_uri : String) :
    List (Entry × String) :=
  c.uri_prefixes.flatMap (fun kv =>
    match c.plugins[kv.2]? with
    | none => []
    | some p => (p.catalog_entries tenant).map
        (fun e => (e, serviceUriFor base_uri kv.1.1 kv.1.2)))

/-- The flat, unnumbered records of the endpoints projection over
prefix-paired entries (the composition the boundary performs when it feeds
`entries_for_tenant` and the prefix map into `get_endpoints`). -/
def pairedPreRecords (pairs : List (Entry × String)) : List PreRecord :=
  pairs.flatMap (fun pr => pr.1.endpoints.map (fun ep =>
    { region := ep.region, tenantId := ep.tenant_id, publicURL := ep.urlFor pr.2,
      name := pr.1.name, type := pr.1.type }))

/-- The token-response service catalog the boundary produces for a tenant:
`to_token_catalog` over the tenant's prefix-paired entries. -/
def tokenCatalogFor (c : CatalogCore) (tenant base_uri : String) : List CatalogService :=
  (entries_for_tenant c tenant base_uri).map (fun pr =>
    { name := pr.1.name, type := pr.1.type,
      endpoints := pr.1.endpoints.map (fun ep =>
        { region := ep.region, tenantId := ep.tenant_id,
          publicURL := ep.urlFor pr.2 }) })

/-- The flat endpoints response the boundary produces for a tenant:
`to_endpoints_catalog` over the tenant's prefix-paired entries. -/
def endpointsFor (c : CatalogCore) (tenant base_uri : String) : List EndpointRecord :=
  tagIds 1 (pairedPreRecords (entries_for_tenant c tenant base_uri))

/-- `url` starts with `base`: some suffix extends `base` to `url`. -/
def hasBase (base url : String) : Prop :=
  ∃ t, url = base ++ t

theorem hasBase_serviceUriFor (base r s : String) :
    hasBase base (serviceUriFor base r s) := by
  refine ⟨"service/" ++ r ++ "/" ++ s ++ "/", ?_⟩
  unfold serviceUriFor
  simp [String.append_assoc]

theorem hasBase_append {base u : String} (suf : String) (h : hasBase base u) :
    hasBase base (u ++ suf) := by
  rcases h with ⟨t, rfl⟩
  exact ⟨t ++ suf, String.append_assoc base t suf⟩

theorem mem_entries_for_tenant {c : CatalogCore} {tenant base_uri : String}
    {pr : Entry × String} (h : pr ∈ entries_for_tenant c tenant base_uri) :
    (∃ p ∈ c.plugins, pr.1 ∈ p.catalog_entries tenant) ∧
    ∃ r s, pr.2 = serviceUriFor base_uri r s := by
  rcases List.mem_flatMap.mp h with ⟨kv, hkv, hmem⟩
  cases hpl : c.plugins[kv.2]? with
  | none => rw [hpl] at hmem; cases hmem
  | some p =>
    rw [hpl] at hmem
    rcases List.mem_map.mp hmem with ⟨e, he, rfl⟩
    exact ⟨⟨p, List.getElem?_mem hpl, he⟩, kv.1.1, kv.1.2, rfl⟩

theorem mem_pairedPreRecords {q : PreRecord} {pairs : List (Entry × String)}
    (h : q ∈ pairedPreRecords pairs) :
    ∃ pr ∈ pairs, ∃ ep ∈ pr.1.endpoints, q.publicURL = ep.urlFor pr.2 := by
  rcases List.mem_flatMap.mp h with ⟨pr, hpr, hq⟩
  rcases List.mem_map.mp hq with ⟨ep, hep, rfl⟩
  exact ⟨pr, hpr, ep, hep, rfl⟩

theorem entries_url_hasBase {c : CatalogCore} {tenant base_uri : String}
    (hstd : ∀ p ∈ c.plugins, ∀ e ∈ p.catalog_entries tenant, ∀ ep ∈ e.endpoints,
      ∀ u : String, ∃ suf, ep.urlFor u = u ++ suf) :
    ∀ pr ∈ entries_for_tenant c tenant base_uri, ∀ ep ∈ pr.1.endpoints,
      hasBase base_uri (ep.urlFor pr.2) := by
  intro pr hpr ep hep
  rcases mem_entries_for_tenant hpr with ⟨⟨p, hpmem, hent⟩, r, s, hpre2⟩
  rcases hstd p hpmem pr.1 hent ep hep pr.2 with ⟨suf, hsuf⟩
  rw [hsuf, hpre2]
  exact hasBase_append suf (hasBase_serviceUriFor base_uri r s)

/-- C6: for every registered plugin set and tenant, when the catalog is
produced with `base_uri = "http://mybase/"`, every `publicURL` emitted by
either projection — token catalog or flat endpoints catalog — starts with
`"http://mybase/"`.  The hypothesis states the contract of the repository's
`Endpoint.url_with_prefix` (`mimic/catalog.py`, not in the sources): each
plugin-produced endpoint renders its public URL as the supplied prefix
followed by an endpoint-specific suffix. -/
theorem catalog_urls_start_with_base (c : CatalogCore) (tenant : String)
    (hstd : ∀ p ∈ c.plugins, ∀ e ∈ p.catalog_entries tenant, ∀ ep ∈ e.endpoints,
      ∀ u : String, ∃ suf, ep.urlFor u = u ++ suf) :
    (∀ svc ∈ tokenCatalogFor c tenant "http://mybase/",
      ∀ cep ∈ svc.endpoints, hasBase "http://mybase/" cep.publicURL) ∧
    ∀ r ∈ endpointsFor c tenant "http://mybase/",
      hasBase "http://mybase/" r.publicURL := by
  constructor
  · intro svc hsvc cep hcep
    rcases List.mem_map.mp hsvc with ⟨pr, hpr, rfl⟩
    rcases List.mem_map.mp hcep with ⟨ep, hep, rfl⟩
    exact entries_url_hasBase hstd pr hpr ep hep
  · intro r hr
    rcases mem_pairedPreRecords (mem_tagIds hr) with ⟨pr, hpr, ep, hep, hurl⟩
    have hb := entries_url_hasBase hstd pr hpr ep hep
    rw [← hurl] at hb
    exact hb

/-- A concrete plugin for the base-URI witness, shaped after
`ExampleAPI.catalog_entries` in `mimic/test/dummy.py`. -/
def examplePlugin : CatalogPlugin :=
  { catalog_entries := fun tid =>
      [{ tenant_id := tid, type := "serviceType", name := "serviceName",
         endpoints := [{ tenant_id := tid, region := "ORD", endpoint_id := "uuid",
                         urlFor := fun u => u ++ "v2/" }] }] }

/-- A concrete catalog core registering `examplePlugin` under one
region. -/
def exampleCore : CatalogCore :=
  { uri_prefixes := [(("ORD", "sid0"), 0)], plugins := [examplePlugin] }

theorem catalog_urls_start_with_base_witness :
    (∀ svc ∈ tokenCatalogFor exampleCore "1234" "http://mybase/",
      ∀ cep ∈ svc.endpoints, hasBase "http://mybase/" cep.publicURL) ∧
    ∀ r ∈ endpointsFor exampleCore "1234" "http://mybase/",
      hasBase "http://mybase/" r.publicURL :=
  catalog_urls_start_with_base exampleCore "1234" (by
    intro p hp e he ep hep u
    rcases List.mem_singleton.mp hp with rfl
    rcases List.mem_singleton.mp he with rfl
    rcases List.mem_singleton.mp hep with rfl
    exact ⟨"v2/", rfl⟩)

end Mimic
